import Mathlib

/-!
Verification of the CombineNode data model (src/index.js of combinejs/combine-node).

The JavaScript class `CombineNode` is shallowly embedded: JS objects used as
string-keyed dictionaries become insertion-ordered association lists with the
update-in-place semantics of JS property assignment, methods become Lean
functions on a `CombineNode` value, and the fallible unchecked property getter
returns an `Option` (with `none` standing for the thrown TypeError).
-/

/-- An insertion-ordered string-keyed dictionary, the embedding of a plain JS
object. The list never holds two entries with the same key when built through
`objSet`. -/
abbrev Obj (α : Type) : Type := List (String × α)

/-- JS property assignment `m[k] = v`: if `k` is already a key, its value is
replaced in place (key order preserved); otherwise the pair is appended. -/
def objSet {α : Type} (m : Obj α) (k : String) (v : α) : Obj α :=
  if (m.lookup k).isSome then
    m.map (fun p => if p.1 == k then (k, v) else p)
  else
    m ++ [(k, v)]

/-- `Object.assign(t, s)`: copy every entry of `s` into `t` in order,
overwriting existing keys in place. -/
def objAssign {α : Type} (t s : Obj α) : Obj α :=
  s.foldl (fun acc kv => objSet acc kv.1 kv.2) t

/-- `Object.keys`, in insertion order (all keys involved are non-numeric
strings, for which JS preserves insertion order). -/
def objKeys {α : Type} (m : Obj α) : List String :=
  m.map Prod.fst

/-- Helper for `kebab`: a hyphen is inserted before every uppercase letter and
the letter is lowercased. -/
def kebabAux : List Char → List Char
  | [] => []
  | c :: cs => if c.isUpper then '-' :: c.toLower :: kebabAux cs else c :: kebabAux cs

/-- Modelled from the spec: the kebab-case conversion (`Case.kebab` of the
external `case` npm library, which is not part of this repository) turns a
camel-case identifier into its hyphen-separated lowercase form, e.g.
`backgroundColor` into `background-color` and `Button` into `button`. -/
def kebab (s : String) : String :=
  match kebabAux s.data with
  | '-' :: rest => String.mk rest
  | l => String.mk l

/-- The embedding of the `CombineNode` class state: name, the two BEM name
fields, the two classification flags, the namespaced property storage
`_props`, the children list `_content`, the mixin list `_mixins`, and the
directive registry `_directives` (directive handles are opaque to the class;
they are represented by strings). -/
inductive CombineNode : Type where
  | mk (name blockName elementName : String) (isBlock isElement : Bool)
      (props : Obj (Obj String)) (content : List CombineNode)
      (mixins : List CombineNode) (directives : Obj String) : CombineNode

def CombineNode.name : CombineNode → String
  | .mk x _ _ _ _ _ _ _ _ => x

def CombineNode.blockName : CombineNode → String
  | .mk _ x _ _ _ _ _ _ _ => x

def CombineNode.elementName : CombineNode → String
  | .mk _ _ x _ _ _ _ _ _ => x

def CombineNode.isBlock : CombineNode → Bool
  | .mk _ _ _ x _ _ _ _ _ => x

def CombineNode.isElement : CombineNode → Bool
  | .mk _ _ _ _ x _ _ _ _ => x

def CombineNode.props : CombineNode → Obj (Obj String)
  | .mk _ _ _ _ _ x _ _ _ => x

def CombineNode.content : CombineNode → List CombineNode
  | .mk _ _ _ _ _ _ x _ _ => x

def CombineNode.mixins : CombineNode → List CombineNode
  | .mk _ _ _ _ _ _ _ x _ => x

def CombineNode.directives : CombineNode → Obj String
  | .mk _ _ _ _ _ _ _ _ x => x

/-- The constructor: `name[0].toLowerCase() !== name[0]` decides the
classification; a block keeps `name` in `blockName`, an element keeps it in
`elementName`, the other field is the empty string, and all four storages
start empty. (The JS constructor throws on the empty name, which no claim
exercises; `String.front` then reads the default character.) -/
def mkNode (name : String) : CombineNode :=
  let isCapitalizeFirstLetter := name.front.toLower != name.front
  .mk name
    (if isCapitalizeFirstLetter then name else "")
    (if !isCapitalizeFirstLetter then name else "")
    isCapitalizeFirstLetter
    (!isCapitalizeFirstLetter)
    [] [] [] []

/-- `addChild`: append to the end of `_content`. -/
def CombineNode.addChild : CombineNode → CombineNode → CombineNode
  | .mk n b e ib ie p c m d, node => .mk n b e ib ie p (c ++ [node]) m d

/-- `setChilds`: replace `_content`. -/
def CombineNode.setChilds : CombineNode → List CombineNode → CombineNode
  | .mk n b e ib ie p _ m d, nodes => .mk n b e ib ie p nodes m d

def CombineNode.getChilds (n : CombineNode) : List CombineNode :=
  n.content

def CombineNode.hasChilds (n : CombineNode) : Bool :=
  n.content.length > 0

def CombineNode.emptyChilds (n : CombineNode) : Bool :=
  n.content.length == 0

/-- `addMixin`: append to the end of `_mixins`. -/
def CombineNode.addMixin : CombineNode → CombineNode → CombineNode
  | .mk n b e ib ie p c m d, mixinNode => .mk n b e ib ie p c (m ++ [mixinNode]) d

def CombineNode.getMixines (n : CombineNode) : List CombineNode :=
  n.mixins

/-- `addDirective`: store or overwrite the handle by name. -/
def CombineNode.addDirective : CombineNode → String → String → CombineNode
  | .mk n b e ib ie p c m d, nm, directive => .mk n b e ib ie p c m (objSet d nm directive)

/-- `getDirective`: `this._directives[name]`, `none` for `undefined`. -/
def CombineNode.getDirective (n : CombineNode) (name : String) : Option String :=
  n.directives.lookup name

def CombineNode.hasDirective (n : CombineNode) (name : String) : Bool :=
  (n.directives.lookup name).isSome

def CombineNode.getDirectives (n : CombineNode) : Obj String :=
  n.directives

/-- `getPropNS`: `this._props[name]`, `none` when the namespace was never
created (JS `undefined`). -/
def CombineNode.getPropNS (n : CombineNode) (name : String) : Option (Obj String) :=
  n.props.lookup name

def CombineNode.hasPropNS (n : CombineNode) (name : String) : Bool :=
  (n.props.lookup name).isSome

/-- The namespace read used where the source indexes the namespace object
directly under a `hasPropNS` guard: an absent namespace reads as the empty
object. -/
def CombineNode.getPropNSD (n : CombineNode) (name : String) : Obj String :=
  (n.getPropNS name).getD []

/-- `getProp`: `this.getPropNS(namespace)[name]`. The outer `Option` models
the TypeError thrown when the namespace is absent (`none` = crash); inside an
existing namespace the inner `Option` models `undefined` for an absent
property name. -/
def CombineNode.getProp (n : CombineNode) (namespace1 name : String) : Option (Option String) :=
  match n.getPropNS namespace1 with
  | none => none
  | some m => some (m.lookup name)

/-- The property read used where the source calls `getProp` under a `hasProp`
guard: a missing namespace or name reads as the empty string. -/
def CombineNode.getPropD (n : CombineNode) (namespace1 name : String) : String :=
  ((n.getPropNSD namespace1).lookup name).getD ""

/-- `hasProp`: the namespace exists and holds the name. -/
def CombineNode.hasProp (n : CombineNode) (namespace1 name : String) : Bool :=
  match n.getPropNS namespace1 with
  | none => false
  | some m => (m.lookup name).isSome

/-- `setProp`: lazily create the namespace, then set `name` to `value` inside
it (in-place overwrite, insertion order preserved at both levels). -/
def CombineNode.setProp : CombineNode → String → String → String → CombineNode
  | .mk nm b e ib ie p c m d, ns, k, v =>
      .mk nm b e ib ie (objSet p ns (objSet ((p.lookup ns).getD []) k v)) c m d

/-- `getAllMixedNodes`: `[this].concat(this.getMixines())`. -/
def CombineNode.getAllMixedNodes (n : CombineNode) : List CombineNode :=
  [n] ++ n.getMixines

/-- `getHtmlTag`: start from `"div"` and, over the mixed nodes in order,
overwrite the running tag with every node that has the `("html","tag")`
property. -/
def CombineNode.getHtmlTag (n : CombineNode) : String :=
  n.getAllMixedNodes.foldl
    (fun tag node => if node.hasProp "html" "tag" then node.getPropD "html" "tag" else tag)
    "div"

/-- The accumulator built inside `getCssMixedRules`: `Object.assign` every
mixed node's `css` namespace into one flat object, in mixed-node order. -/
def CombineNode.cssMixedMap (n : CombineNode) : Obj String :=
  n.getAllMixedNodes.foldl
    (fun acc node => if node.hasPropNS "css" then objAssign acc (node.getPropNSD "css") else acc)
    []

/-- The rendering loop of `getCssMixedRules`: over `Object.keys` of the merged
object, emit `kebab(key):value` and join with `;`. -/
def renderCssRules (mixedRules : Obj String) : String :=
  String.intercalate ";"
    ((objKeys mixedRules).map (fun cssRule => kebab cssRule ++ ":" ++ ((mixedRules.lookup cssRule).getD "")))

/-- `getCssMixedRules`: merge then render. -/
def CombineNode.getCssMixedRules (n : CombineNode) : String :=
  renderCssRules n.cssMixedMap

/-- `getHtmlClass` (single node): `kebab(blockName)` followed, when the node
is an element, by `"__" ++ kebab(elementName)`. -/
def CombineNode.getHtmlClass (n : CombineNode) : String :=
  kebab n.blockName ++ (if n.isElement then "__" ++ kebab n.elementName else "")

/-- `getHtmlMixedClass`: the single-node classes of all mixed nodes joined
with one space. -/
def CombineNode.getHtmlMixedClass (n : CombineNode) : String :=
  String.intercalate " " (n.getAllMixedNodes.map (fun node => node.getHtmlClass))

/-- `_getAttributesString`: the object `{class: getHtmlMixedClass(),
styles: getCssMixedRules()}`; over its keys in order, emit `name="value"` for
every non-empty value and join with one space. Note the source spells the
second key `styles`. -/
def CombineNode.getAttributesString (n : CombineNode) : String :=
  let attrs : Obj String := [("class", n.getHtmlMixedClass), ("styles", n.getCssMixedRules)]
  String.intercalate " "
    (((objKeys attrs).filter (fun name => ((attrs.lookup name).getD "").length > 0)).map
      (fun name => name ++ "=\"" ++ ((attrs.lookup name).getD "") ++ "\""))

/-- `getHtmlTagStart`: the interpolation `<TAG ATTRS>`. -/
def CombineNode.getHtmlTagStart (n : CombineNode) : String :=
  let t := n.getHtmlTag
  let a := n.getAttributesString
  s!"<{t} {a}>"

/-- `getHtmlTagEnd`: the interpolation `</TAG>`. -/
def CombineNode.getHtmlTagEnd (n : CombineNode) : String :=
  let t := n.getHtmlTag
  s!"</{t}>"

/-! ### State-passing embeddings of the derived computations

The bodies of the derived rendering methods assign only to local variables,
never to a field of `this`; their faithful state-passing embedding therefore
returns the receiver state unchanged alongside the string result. -/

def CombineNode.getHtmlTagSt (n : CombineNode) : String × CombineNode :=
  (n.getHtmlTag, n)

def CombineNode.getCssMixedRulesSt (n : CombineNode) : String × CombineNode :=
  (n.getCssMixedRules, n)

def CombineNode.getHtmlClassSt (n : CombineNode) : String × CombineNode :=
  (n.getHtmlClass, n)

def CombineNode.getHtmlMixedClassSt (n : CombineNode) : String × CombineNode :=
  (n.getHtmlMixedClass, n)

def CombineNode.getAttributesStringSt (n : CombineNode) : String × CombineNode :=
  (n.getAttributesString, n)

def CombineNode.getHtmlTagStartSt (n : CombineNode) : String × CombineNode :=
  (n.getHtmlTagStart, n)

def CombineNode.getHtmlTagEndSt (n : CombineNode) : String × CombineNode :=
  (n.getHtmlTagEnd, n)

/-- The classification-relevant fields of a node, packed for the lifetime
invariant. -/
def classif (n : CombineNode) : Bool × Bool × String × String :=
  (n.isBlock, n.isElement, n.blockName, n.elementName)

/-! ### Concrete nodes used by witnesses and counterexamples -/

/-- A block node with one css property, exercising the attribute string. -/
def c1Node : CombineNode := (mkNode "Button").setProp "css" "backgroundColor" "red"

/-- Node A of the mixin-priority scenario, before its mixins are added. -/
def c2a0 : CombineNode := ((mkNode "A").setProp "html" "tag" "ta").setProp "css" "color" "va"

/-- Node B of the mixin-priority scenario. -/
def c2b : CombineNode := ((mkNode "B").setProp "html" "tag" "tb").setProp "css" "color" "vb"

/-- Node C of the mixin-priority scenario. -/
def c2c : CombineNode := ((mkNode "C").setProp "html" "tag" "tc").setProp "css" "color" "vc"

/-- Node A with mixins B then C added in that order. -/
def c2a : CombineNode := (c2a0.addMixin c2b).addMixin c2c

/-- The round-trip scenario: block `Button` with `("html","tag")="button"`,
`("css","backgroundColor")="red"` and the element mixin `disabled`. -/
def c3Button : CombineNode :=
  (((mkNode "Button").setProp "html" "tag" "button").setProp "css" "backgroundColor" "red").addMixin
    (mkNode "disabled")

/-- A node with one css property, duplicated as a mixin in the idempotence
scenarios. -/
def c6A : CombineNode := (mkNode "A").setProp "css" "color" "red"

/-- A node overriding the same css key with a different value. -/
def c6B : CombineNode := (mkNode "B").setProp "css" "color" "blue"

/-- A node with an `html` namespace but no `css` namespace. -/
def c8Node : CombineNode := (mkNode "X").setProp "html" "tag" "span"

/-- A raw node state with empty names and no properties: its attribute string
is empty, exercising the unconditional space of `getHtmlTagStart`. -/
def c9Empty : CombineNode := CombineNode.mk "" "" "" false false [] [] [] []

/-! ### Lemmas about the JS-object operations -/

theorem lookup_cons_ne {α : Type} (a : String) (b : α) (rest : Obj α) (k : String)
    (h : ¬ k = a) : ((a, b) :: rest).lookup k = rest.lookup k := by
  rw [List.lookup_cons, beq_eq_false_iff_ne.mpr h]

theorem lookup_map_replace_self {α : Type} (m : Obj α) (k : String) (v : α)
    (h : (m.lookup k).isSome = true) :
    (m.map (fun p => if p.1 == k then (k, v) else p)).lookup k = some v := by
  induction m with
  | nil => simp at h
  | cons p rest ih =>
    obtain ⟨a, b⟩ := p
    by_cases hak : a = k
    · subst hak
      simp
    · have hka : ¬ k = a := fun he => hak he.symm
      rw [lookup_cons_ne a b rest k hka] at h
      show ((if ((a, b).1 == k) = true then (k, v) else (a, b)) :: _).lookup k = some v
      rw [if_neg (by simp [hak]), lookup_cons_ne a b _ k hka]
      exact ih h

theorem lookup_map_replace_ne {α : Type} (m : Obj α) (k k' : String) (v : α)
    (h : ¬ k' = k) :
    (m.map (fun p => if p.1 == k then (k, v) else p)).lookup k' = m.lookup k' := by
  induction m with
  | nil => rfl
  | cons p rest ih =>
    obtain ⟨a, b⟩ := p
    by_cases hak : a = k
    · subst hak
      show ((if ((a, b).1 == a) = true then (a, v) else (a, b)) :: _).lookup k' = _
      rw [if_pos (by simp), lookup_cons_ne a v _ k' h, lookup_cons_ne a b rest k' h]
      exact ih
    · show ((if ((a, b).1 == k) = true then (k, v) else (a, b)) :: _).lookup k' = _
      rw [if_neg (by simp [hak])]
      by_cases hk'a : k' = a
      · subst hk'a
        simp
      · rw [lookup_cons_ne a b _ k' hk'a, lookup_cons_ne a b rest k' hk'a]
        exact ih

theorem lookup_append_single_self {α : Type} (m : Obj α) (k : String) (v : α)
    (h : m.lookup k = none) :
    (m ++ [(k, v)]).lookup k = some v := by
  induction m with
  | nil => simp
  | cons p rest ih =>
    obtain ⟨a, b⟩ := p
    by_cases hak : k = a
    · subst hak
      simp at h
    · rw [List.cons_append, lookup_cons_ne a b _ k hak]
      rw [lookup_cons_ne a b rest k hak] at h
      exact ih h

theorem lookup_append_single_ne {α : Type} (m : Obj α) (k k' : String) (v : α)
    (h : ¬ k' = k) :
    (m ++ [(k, v)]).lookup k' = m.lookup k' := by
  induction m with
  | nil => simpa using lookup_cons_ne k v [] k' h
  | cons p rest ih =>
    obtain ⟨a, b⟩ := p
    by_cases hk'a : k' = a
    · subst hk'a
      simp
    · rw [List.cons_append, lookup_cons_ne a b _ k' hk'a, lookup_cons_ne a b rest k' hk'a]
      exact ih

theorem lookup_objSet_self {α : Type} (m : Obj α) (k : String) (v : α) :
    (objSet m k v).lookup k = some v := by
  unfold objSet
  by_cases h : (m.lookup k).isSome = true
  · rw [if_pos h]
    exact lookup_map_replace_self m k v h
  · rw [if_neg h]
    cases hm : m.lookup k with
    | none => exact lookup_append_single_self m k v hm
    | some w => rw [hm] at h; simp at h

theorem lookup_objSet_ne {α : Type} (m : Obj α) (k k' : String) (v : α) (h : ¬ k' = k) :
    (objSet m k v).lookup k' = m.lookup k' := by
  unfold objSet
  by_cases hs : (m.lookup k).isSome = true
  · rw [if_pos hs]
    exact lookup_map_replace_ne m k k' v h
  · rw [if_neg hs]
    exact lookup_append_single_ne m k k' v h

theorem lookup_eq_none_of_notmem {α : Type} (m : Obj α) (k : String)
    (h : ¬ k ∈ objKeys m) :
    m.lookup k = none := by
  induction m with
  | nil => rfl
  | cons p rest ih =>
    obtain ⟨a, b⟩ := p
    have h2 : ¬ (k = a ∨ k ∈ objKeys rest) := by
      intro hor
      exact h (by simpa [objKeys] using hor)
    push_neg at h2
    rw [lookup_cons_ne a b rest k h2.1]
    exact ih h2.2

theorem lookup_of_mem_nodup {α : Type} (m : Obj α) (k : String) (v : α)
    (hnd : (objKeys m).Nodup) (hm : (k, v) ∈ m) :
    m.lookup k = some v := by
  induction m with
  | nil => simp at hm
  | cons p rest ih =>
    obtain ⟨a, b⟩ := p
    have hnd1 : (a :: objKeys rest).Nodup := hnd
    have hnd2 := List.nodup_cons.mp hnd1
    rcases List.mem_cons.mp hm with h1 | h2
    · rw [show k = a from congrArg Prod.fst h1, show v = b from congrArg Prod.snd h1]
      simp
    · have hka : ¬ k = a := by
        intro he
        subst he
        exact hnd2.1 (by simpa [objKeys] using List.mem_map_of_mem Prod.fst h2)
      rw [lookup_cons_ne a b rest k hka]
      exact ih hnd2.2 h2

theorem map_replace_notmem {α : Type} (m : Obj α) (k : String) (v : α)
    (h : ¬ k ∈ objKeys m) :
    m.map (fun p => if p.1 == k then (k, v) else p) = m := by
  induction m with
  | nil => rfl
  | cons p rest ih =>
    obtain ⟨a, b⟩ := p
    have h2 : ¬ (k = a ∨ k ∈ objKeys rest) := by
      intro hor
      exact h (by simpa [objKeys] using hor)
    push_neg at h2
    have hak : ¬ a = k := fun he => h2.1 he.symm
    show (if ((a, b).1 == k) = true then (k, v) else (a, b)) :: _ = _
    rw [if_neg (by simp [hak]), ih h2.2]

theorem map_replace_id {α : Type} (m : Obj α) (k : String) (v : α)
    (hnd : (objKeys m).Nodup) (h : m.lookup k = some v) :
    m.map (fun p => if p.1 == k then (k, v) else p) = m := by
  induction m with
  | nil => rfl
  | cons p rest ih =>
    obtain ⟨a, b⟩ := p
    have hnd1 : (a :: objKeys rest).Nodup := hnd
    have hnd2 := List.nodup_cons.mp hnd1
    by_cases hak : a = k
    · subst hak
      have hbv : b = v := by simpa using h
      subst hbv
      show (if ((a, b).1 == a) = true then (a, b) else (a, b)) :: _ = _
      rw [if_pos (by simp), map_replace_notmem rest a b hnd2.1]
    · have hka : ¬ k = a := fun he => hak he.symm
      rw [lookup_cons_ne a b rest k hka] at h
      show (if ((a, b).1 == k) = true then (k, v) else (a, b)) :: _ = _
      rw [if_neg (by simp [hak]), ih hnd2.2 h]

theorem objSet_id {α : Type} (m : Obj α) (k : String) (v : α)
    (hnd : (objKeys m).Nodup) (h : m.lookup k = some v) :
    objSet m k v = m := by
  unfold objSet
  rw [if_pos (by rw [h]; rfl)]
  exact map_replace_id m k v hnd h

theorem objAssign_cons {α : Type} (t : Obj α) (k : String) (v : α) (s : Obj α) :
    objAssign t ((k, v) :: s) = objAssign (objSet t k v) s := rfl

theorem objAssign_fix {α : Type} (m : Obj α) (s : Obj α)
    (hnd : (objKeys m).Nodup) (hs : ∀ kv ∈ s, m.lookup kv.1 = some kv.2) :
    objAssign m s = m := by
  induction s with
  | nil => rfl
  | cons kv rest ih =>
    obtain ⟨k, v⟩ := kv
    rw [objAssign_cons, objSet_id m k v hnd (hs (k, v) (List.mem_cons_self _ _))]
    exact ih (fun kv hkv => hs kv (List.mem_cons_of_mem _ hkv))

theorem objAssign_disjoint {α : Type} (s : Obj α) :
    ∀ (m : Obj α), (∀ k ∈ objKeys s, m.lookup k = none) → (objKeys s).Nodup →
      objAssign m s = m ++ s := by
  induction s with
  | nil =>
    intro m _ _
    simp [objAssign]
  | cons kv rest ih =>
    intro m h hnd
    obtain ⟨k, v⟩ := kv
    have hnd1 : (k :: objKeys rest).Nodup := hnd
    have hnd2 := List.nodup_cons.mp hnd1
    rw [objAssign_cons]
    have h1 : m.lookup k = none := h k (by simp [objKeys])
    have hset : objSet m k v = m ++ [(k, v)] := by
      unfold objSet
      rw [if_neg (by rw [h1]; simp)]
    rw [hset, ih (m ++ [(k, v)]) ?_ hnd2.2]
    · simp
    · intro k2 hk2
      have hne : ¬ k2 = k := by
        intro he
        subst he
        exact hnd2.1 hk2
      rw [lookup_append_single_ne m k k2 v hne]
      refine h k2 ?_
      simpa [objKeys] using Or.inr (by simpa [objKeys] using hk2)

theorem objAssign_nil_left {α : Type} (s : Obj α) (hnd : (objKeys s).Nodup) :
    objAssign [] s = s := by
  simpa using objAssign_disjoint s [] (fun k _ => rfl) hnd

theorem lookup_objAssign {α : Type} (k : String) (s : Obj α) :
    ∀ (t : Obj α), (objKeys s).Nodup →
      (objAssign t s).lookup k = (s.lookup k).or (t.lookup k) := by
  induction s with
  | nil =>
    intro t _
    rfl
  | cons kv rest ih =>
    intro t hnd
    obtain ⟨k1, v1⟩ := kv
    have hnd1 : (k1 :: objKeys rest).Nodup := hnd
    have hnd2 := List.nodup_cons.mp hnd1
    rw [objAssign_cons, ih (objSet t k1 v1) hnd2.2]
    by_cases hk : k = k1
    · subst hk
      have hr : rest.lookup k = none := lookup_eq_none_of_notmem rest k hnd2.1
      rw [hr]
      simp [lookup_objSet_self]
    · rw [lookup_cons_ne k1 v1 rest k hk, lookup_objSet_ne t k1 k v1 hk]

theorem foldl_if_last {α β : Type} (p : α → Bool) (f : α → β) (l : List α) :
    ∀ t : β,
      l.foldl (fun acc x => if p x then f x else acc) t =
        ((l.reverse.find? p).map f).getD t := by
  induction l with
  | nil =>
    intro t
    rfl
  | cons x xs ih =>
    intro t
    rw [List.foldl_cons, ih, List.reverse_cons, List.find?_append]
    cases h : xs.reverse.find? p with
    | some m => simp
    | none => cases hp : p x <;> simp [hp]

theorem getAllMixedNodes_eq (n : CombineNode) :
    n.getAllMixedNodes = n :: n.mixins := rfl

theorem cssMixedMap_eq (n : CombineNode) :
    n.cssMixedMap =
      n.getAllMixedNodes.foldl (fun acc node => objAssign acc (node.getPropNSD "css")) [] := by
  unfold CombineNode.cssMixedMap
  congr 1
  funext acc node
  by_cases h : node.hasPropNS "css"
  · simp [h]
  · have hd : node.getPropNSD "css" = [] := by
      unfold CombineNode.getPropNSD CombineNode.getPropNS
      unfold CombineNode.hasPropNS at h
      cases hm : node.props.lookup "css" with
      | none => rfl
      | some m => rw [hm] at h; simp at h
    simp [h, hd, objAssign]

/-! ### Additional concrete nodes for the C6 scenarios -/

/-- `c6A` with mixins `[c6B, c6A]`: the mixin list contains a node (the node
itself) with exactly the same css-namespace properties as the node. -/
def c6WithDup : CombineNode := (c6A.addMixin c6B).addMixin c6A

/-- `c6A` with the single mixin `c6B`: the same node without the duplicate
mixin. -/
def c6NoDup : CombineNode := c6A.addMixin c6B

/-! ### Claim theorems -/

/-- C1: the attribute string is assembled from a two-key mapping emitting
`key="value"` for non-empty values, space-joined, class first — but the second
key the code writes is `styles`, not the valid HTML attribute `style` the spec
names: on a node with one css property the code emits
`styles="background-color:red"`, never a `style` attribute. -/
theorem c1_attributes_styles_key :
    c1Node.getAttributesString = "class=\"button\" styles=\"background-color:red\"" ∧
    ¬ c1Node.getAttributesString = "class=\"button\" style=\"background-color:red\"" :=
  ⟨rfl, by decide⟩

/-- C2: with mixins `[b, c]` on node `a`, every derived computation resolves a
key set on several of them to the highest-priority setter: `getHtmlTag` takes
`c`'s `("html","tag")` value when `c` sets it, else `b`'s, else `a`'s, else
`"div"`; and the merged css accumulator resolves any key `k` to `c`'s value
when `c`'s css namespace binds it, else `b`'s, else `a`'s. -/
theorem c2_mixin_priority (a b c : CombineNode) (k : String)
    (hm : a.getMixines = [b, c])
    (ha : (objKeys (a.getPropNSD "css")).Nodup)
    (hb : (objKeys (b.getPropNSD "css")).Nodup)
    (hc : (objKeys (c.getPropNSD "css")).Nodup) :
    a.getHtmlTag =
      (if c.hasProp "html" "tag" then c.getPropD "html" "tag"
        else if b.hasProp "html" "tag" then b.getPropD "html" "tag"
        else if a.hasProp "html" "tag" then a.getPropD "html" "tag"
        else "div") ∧
    a.cssMixedMap.lookup k =
      ((c.getPropNSD "css").lookup k).or
        (((b.getPropNSD "css").lookup k).or ((a.getPropNSD "css").lookup k)) := by
  have hall : a.getAllMixedNodes = [a, b, c] := by
    rw [getAllMixedNodes_eq, show a.mixins = a.getMixines from rfl, hm]
  constructor
  · unfold CombineNode.getHtmlTag
    rw [hall]
    rfl
  · rw [cssMixedMap_eq, hall]
    show (objAssign (objAssign (objAssign [] (a.getPropNSD "css")) (b.getPropNSD "css"))
        (c.getPropNSD "css")).lookup k = _
    rw [lookup_objAssign k _ _ hc, lookup_objAssign k _ _ hb, lookup_objAssign k _ _ ha]
    simp

/-- C2 witness: on the concrete scenario where A, B and C all set
`("html","tag")` and `("css","color")`, the values resolve to C's. -/
theorem c2_mixin_priority_witness :
    c2a.getHtmlTag = "tc" ∧ c2a.cssMixedMap.lookup "color" = some "vc" := by
  have h := c2_mixin_priority c2a c2b c2c "color" rfl (by decide) (by decide) (by decide)
  refine ⟨?_, ?_⟩
  · rw [h.1]
    decide
  · rw [h.2]
    decide

/-- C3: the round-trip scenario — block `Button` with `("html","tag")="button"`
and `("css","backgroundColor")="red"` plus the property-less element mixin
`disabled` yields tag `button`, mixed class `button __disabled`, and css rules
`background-color:red`. -/
theorem c3_round_trip :
    c3Button.getHtmlTag = "button" ∧
    c3Button.getHtmlMixedClass = "button __disabled" ∧
    c3Button.getCssMixedRules = "background-color:red" :=
  ⟨rfl, rfl, rfl⟩

/-- C4: a freshly constructed node with a non-empty name has exactly one of
`isBlock`/`isElement` set, the matching name field holds the input and the
other is empty, and no mutating operation of the class ever writes the
classification fields. -/
theorem c4_classification (name : String) (h : name ≠ "") :
    (((mkNode name).isBlock = true ∧ (mkNode name).isElement = false) ∨
      ((mkNode name).isBlock = false ∧ (mkNode name).isElement = true)) ∧
    ((mkNode name).isBlock = true → (mkNode name).blockName = name ∧ (mkNode name).elementName = "") ∧
    ((mkNode name).isElement = true → (mkNode name).elementName = name ∧ (mkNode name).blockName = "") ∧
    (∀ (m x : CombineNode) (xs : List CombineNode) (ns k v dn dv : String),
      classif (m.addChild x) = classif m ∧ classif (m.setChilds xs) = classif m ∧
      classif (m.addMixin x) = classif m ∧ classif (m.addDirective dn dv) = classif m ∧
      classif (m.setProp ns k v) = classif m) := by
  refine ⟨?_, ?_, ?_, ?_⟩
  · rcases Bool.eq_false_or_eq_true (name.front.toLower != name.front) with hc | hc
    · left
      simp [mkNode, CombineNode.isBlock, CombineNode.isElement, hc]
    · right
      simp [mkNode, CombineNode.isBlock, CombineNode.isElement, hc]
  · rcases Bool.eq_false_or_eq_true (name.front.toLower != name.front) with hc | hc
    · simp [mkNode, CombineNode.isBlock, CombineNode.blockName, CombineNode.elementName, hc]
    · simp [mkNode, CombineNode.isBlock, hc]
  · rcases Bool.eq_false_or_eq_true (name.front.toLower != name.front) with hc | hc
    · simp [mkNode, CombineNode.isElement, hc]
    · simp [mkNode, CombineNode.isElement, CombineNode.blockName, CombineNode.elementName, hc]
  · intro m x xs ns k v dn dv
    cases m with
    | mk nm bn en ib ie p c mx d => exact ⟨rfl, rfl, rfl, rfl, rfl⟩

/-- C4 witness: the classification of the concrete block node `Button`. -/
theorem c4_classification_witness :
    (mkNode "Button").blockName = "Button" ∧ (mkNode "Button").elementName = "" :=
  (c4_classification "Button" (by decide)).2.1 (by decide)

/-- C5: `getHtmlTag` equals the `("html","tag")` value of the last mixed node
(in `[self] ++ mixins` order) that has the property, and `"div"` when no mixed
node has it. -/
theorem c5_getHtmlTag_last_setter (n : CombineNode) :
    n.getHtmlTag =
      ((n.getAllMixedNodes.reverse.find? (fun m => m.hasProp "html" "tag")).map
        (fun m => m.getPropD "html" "tag")).getD "div" := by
  unfold CombineNode.getHtmlTag
  exact foldl_if_last (fun m => m.hasProp "html" "tag") (fun m => m.getPropD "html" "tag")
    n.getAllMixedNodes "div"

/-- C6 counterexample: the claim as stated fails when another mixin sits
between the node and its duplicate. `c6WithDup` has mixin list `[c6B, c6A]`,
which contains a node with exactly the css properties of the self node `c6A`,
yet its rules are `color:red` while dropping the duplicate gives
`color:blue`. -/
theorem c6_counterexample :
    c6WithDup.getMixines = [c6B, c6A] ∧
    c6WithDup.getCssMixedRules = "color:red" ∧
    c6NoDup.getCssMixedRules = "color:blue" ∧
    ¬ c6WithDup.getCssMixedRules = c6NoDup.getCssMixedRules :=
  ⟨rfl, rfl, rfl, by decide⟩

/-- C6 amended: merging the same css namespace twice is idempotent when the
duplicate is the first mixin (before any other mixin can override shared
keys): a node `nd` equal to `n` except that its mixin list prepends a node `d`
carrying exactly `n`'s css namespace renders the same rule string as `n`. -/
theorem c6_css_merge_idempotent (n nd d : CombineNode)
    (h1 : nd.getPropNSD "css" = n.getPropNSD "css")
    (h2 : nd.getMixines = d :: n.getMixines)
    (h3 : d.getPropNSD "css" = n.getPropNSD "css")
    (h4 : (objKeys (n.getPropNSD "css")).Nodup) :
    nd.getCssMixedRules = n.getCssMixedRules := by
  unfold CombineNode.getCssMixedRules
  congr 1
  rw [cssMixedMap_eq, cssMixedMap_eq, getAllMixedNodes_eq, getAllMixedNodes_eq]
  rw [show nd.mixins = nd.getMixines from rfl, h2]
  rw [List.foldl_cons, List.foldl_cons, List.foldl_cons]
  rw [h1, h3]
  rw [objAssign_nil_left _ h4]
  rw [objAssign_fix _ _ h4 (fun kv hkv => lookup_of_mem_nodup _ _ _ h4 hkv)]
  rfl

/-- C6 witness: duplicating `c6A` as its own (only, hence first) mixin leaves
its rendered css rules unchanged. -/
theorem c6_css_merge_idempotent_witness :
    (c6A.addMixin c6A).getCssMixedRules = c6A.getCssMixedRules :=
  c6_css_merge_idempotent c6A (c6A.addMixin c6A) c6A rfl rfl rfl (by decide)

/-- C7: on a freshly constructed node, `getHtmlClass` is `kebab(blockName)`
for a block and `"__" ++ kebab(elementName)` for an element (whose block part
is empty); the two contributions never combine on one node. -/
theorem c7_getHtmlClass (name : String) (h : name ≠ "") :
    ((mkNode name).isBlock = true → (mkNode name).getHtmlClass = kebab name) ∧
    ((mkNode name).isElement = true → (mkNode name).getHtmlClass = "__" ++ kebab name) := by
  unfold CombineNode.getHtmlClass
  rcases Bool.eq_false_or_eq_true (name.front.toLower != name.front) with hc | hc
  · constructor
    · intro _
      rw [show (mkNode name).blockName
            = (if (name.front.toLower != name.front) = true then name else "") from rfl,
        show (mkNode name).isElement = (!(name.front.toLower != name.front)) from rfl,
        hc]
      simp
    · intro he
      rw [show (mkNode name).isElement = (!(name.front.toLower != name.front)) from rfl, hc] at he
      exact absurd he (by simp)
  · constructor
    · intro hb
      rw [show (mkNode name).isBlock = (name.front.toLower != name.front) from rfl, hc] at hb
      exact absurd hb (by simp)
    · intro _
      rw [show (mkNode name).blockName
            = (if (name.front.toLower != name.front) = true then name else "") from rfl,
        show (mkNode name).isElement = (!(name.front.toLower != name.front)) from rfl,
        show (mkNode name).elementName
            = (if (!(name.front.toLower != name.front)) = true then name else "") from rfl,
        hc]
      simp [show kebab "" = "" from rfl]

/-- C7 witness: the block `Button` and the element `disabled`. -/
theorem c7_getHtmlClass_witness :
    (mkNode "Button").getHtmlClass = kebab "Button" ∧
    (mkNode "disabled").getHtmlClass = "__" ++ kebab "disabled" :=
  ⟨(c7_getHtmlClass "Button" (by decide)).1 (by decide),
   (c7_getHtmlClass "disabled" (by decide)).2 (by decide)⟩

/-- C8: `getProp` fails (the embedded TypeError, `none`) exactly when the
namespace was never created, and returns the stored binding when it exists;
`hasProp` is total and true iff the namespace exists and holds the name. -/
theorem c8_getProp_precondition (n : CombineNode) (ns k : String) :
    (n.hasPropNS ns = false → n.getProp ns k = none) ∧
    (∀ m : Obj String, n.getPropNS ns = some m → n.getProp ns k = some (m.lookup k)) ∧
    (n.hasProp ns k = true ↔ (n.hasPropNS ns = true ∧ ((n.getPropNSD ns).lookup k).isSome = true)) := by
  unfold CombineNode.getProp CombineNode.hasProp CombineNode.hasPropNS CombineNode.getPropNSD
    CombineNode.getPropNS
  cases hm : n.props.lookup ns <;> simp [hm]

/-- C8 witness: on a node with only an `html` namespace, reading from `css`
crashes while reading the existing `html` binding succeeds. -/
theorem c8_getProp_precondition_witness :
    c8Node.getProp "css" "color" = none ∧
    c8Node.getProp "html" "tag" = some (List.lookup "tag" [("tag", "span")]) :=
  ⟨(c8_getProp_precondition c8Node "css" "color").1 (by decide),
   (c8_getProp_precondition c8Node "html" "tag").2.1 [("tag", "span")] (by decide)⟩

/-- C9: `getHtmlTagStart` is `"<" ++ tag ++ " " ++ attributes ++ ">"` with the
space inserted unconditionally — producing a trailing space before `>` when
the attribute string is empty — and `getHtmlTagEnd` is `"</" ++ tag ++ ">"`
with the same tag value. -/
theorem c9_tag_start_end (n : CombineNode) :
    n.getHtmlTagStart = "<" ++ n.getHtmlTag ++ " " ++ n.getAttributesString ++ ">" ∧
    n.getHtmlTagEnd = "</" ++ n.getHtmlTag ++ ">" ∧
    (n.getAttributesString = "" → n.getHtmlTagStart = "<" ++ n.getHtmlTag ++ " >") := by
  refine ⟨rfl, rfl, ?_⟩
  intro h
  show "<" ++ n.getHtmlTag ++ " " ++ n.getAttributesString ++ ">" = _
  rw [h]
  rw [String.append_assoc, String.append_assoc]
  rfl

/-- C9 witness: a node state with empty attribute string renders an opening
tag with the trailing space. -/
theorem c9_tag_start_end_witness :
    c9Empty.getHtmlTagStart = "<" ++ c9Empty.getHtmlTag ++ " >" :=
  (c9_tag_start_end c9Empty).2.2 (by decide)

/-- C10: every derived rendering computation is a pure read — its
state-passing embedding returns the node state unchanged, and repeating the
call on the returned state returns the same string. -/
theorem c10_render_pure (n : CombineNode) :
    (n.getHtmlTagSt.2 = n ∧ n.getHtmlTagSt.2.getHtmlTagSt.1 = n.getHtmlTagSt.1) ∧
    (n.getCssMixedRulesSt.2 = n ∧ n.getCssMixedRulesSt.2.getCssMixedRulesSt.1 = n.getCssMixedRulesSt.1) ∧
    (n.getHtmlClassSt.2 = n ∧ n.getHtmlClassSt.2.getHtmlClassSt.1 = n.getHtmlClassSt.1) ∧
    (n.getHtmlMixedClassSt.2 = n ∧ n.getHtmlMixedClassSt.2.getHtmlMixedClassSt.1 = n.getHtmlMixedClassSt.1) ∧
    (n.getAttributesStringSt.2 = n ∧ n.getAttributesStringSt.2.getAttributesStringSt.1 = n.getAttributesStringSt.1) ∧
    (n.getHtmlTagStartSt.2 = n ∧ n.getHtmlTagStartSt.2.getHtmlTagStartSt.1 = n.getHtmlTagStartSt.1) ∧
    (n.getHtmlTagEndSt.2 = n ∧ n.getHtmlTagEndSt.2.getHtmlTagEndSt.1 = n.getHtmlTagEndSt.1) :=
  ⟨⟨rfl, rfl⟩, ⟨rfl, rfl⟩, ⟨rfl, rfl⟩, ⟨rfl, rfl⟩, ⟨rfl, rfl⟩, ⟨rfl, rfl⟩, ⟨rfl, rfl⟩⟩
